import Mathlib

/-!
Shallow embedding of the Financial Analysis & Scoring Engine
(`src/js/utils.js`, `src/unnamed/part_000` = MLEngine,
`src/unnamed/part_001` = FinancialAnalyzer).

JavaScript numbers are modelled as rationals (ℚ): every value the engine
produces from finite inputs is finite, `safeDivide` and `growthRate` guard
the only divisions, and all comparisons are exact.  Lists model JS arrays.
-/

namespace Market

/-- `Utils.clamp(value, min, max) = Math.min(Math.max(value, min), max)`
    (`src/js/utils.js` line 90). -/
def clamp (value lo hi : ℚ) : ℚ := min (max value lo) hi

/-- `Utils.safeDivide(a, b)`: returns 0 when the denominator is zero,
    otherwise the exact quotient (`src/js/utils.js` lines 125-128). -/
def safeDivide (a b : ℚ) : ℚ := if b = 0 then 0 else a / b

/-- `Utils.growthRate(oldVal, newVal)`: 0 when the old value is zero,
    otherwise percentage change (`src/js/utils.js` lines 119-122). -/
def growthRate (oldVal newVal : ℚ) : ℚ :=
  if oldVal = 0 then 0 else (newVal - oldVal) / oldVal * 100

/-- `Utils.isValidNumber(val)`: in the rational model every value is a
    finite number, so the check is identically true
    (`src/js/utils.js` lines 131-133). -/
def isValidNumber (_ : ℚ) : Bool := true

/-- One fiscal-year record: `{ revenue, netProfit, totalDebt, totalEquity,
    marketCap }` (numeric fields used by the engine). -/
structure FiscalYearRecord where
  revenue : ℚ
  netProfit : ℚ
  totalDebt : ℚ
  totalEquity : ℚ
  marketCap : ℚ
  deriving DecidableEq, Repr

/-- A company: the ordered sequence of fiscal-year records
    (name/ticker/sector play no role in the scoring claims). -/
structure Company where
  years : List FiscalYearRecord
  deriving DecidableEq, Repr

/-- All-zero record, the JS value a metric computation degrades to. -/
def FiscalYearRecord.zero : FiscalYearRecord := ⟨0, 0, 0, 0, 0⟩

/-- The derived metrics object of `FinancialAnalyzer.calculateMetrics`. -/
structure Metrics where
  profitMargin : ℚ
  roe : ℚ
  debtToEquity : ℚ
  priceToEquity : ℚ
  priceToSales : ℚ
  revenue : ℚ
  netProfit : ℚ
  totalDebt : ℚ
  totalEquity : ℚ
  marketCap : ℚ
  deriving DecidableEq, Repr

/-- `FinancialAnalyzer.calculateMetrics(company)`
    (`src/unnamed/part_001` lines 11-35): ratios of the latest fiscal
    record via `safeDivide`. -/
def calculateMetrics (c : Company) : Metrics :=
  let latestYear := c.years.getLastD FiscalYearRecord.zero
  { profitMargin := safeDivide latestYear.netProfit latestYear.revenue * 100
    roe := safeDivide latestYear.netProfit latestYear.totalEquity * 100
    debtToEquity := safeDivide latestYear.totalDebt latestYear.totalEquity
    priceToEquity := safeDivide latestYear.marketCap latestYear.totalEquity
    priceToSales := safeDivide latestYear.marketCap latestYear.revenue
    revenue := latestYear.revenue
    netProfit := latestYear.netProfit
    totalDebt := latestYear.totalDebt
    totalEquity := latestYear.totalEquity
    marketCap := latestYear.marketCap }

/-- `FinancialAnalyzer.calculateHealthScore(company)`
    (`src/unnamed/part_001` lines 38-78): additive buckets for
    profitability, ROE, leverage and (with ≥ 2 periods) growth,
    clamped to [0,100]. -/
def calculateHealthScore (c : Company) : ℚ :=
  let metrics := calculateMetrics c
  let score : ℚ := 0
  let score := score +
    (if metrics.profitMargin > 20 then 20
     else if metrics.profitMargin > 10 then 15
     else if metrics.profitMargin > 5 then 10
     else if metrics.profitMargin > 0 then 5 else 0)
  let score := score +
    (if metrics.roe > 20 then 20
     else if metrics.roe > 15 then 15
     else if metrics.roe > 10 then 10
     else if metrics.roe > 5 then 5 else 0)
  let score := score +
    (if metrics.debtToEquity < 0.5 then 30
     else if metrics.debtToEquity < 1 then 20
     else if metrics.debtToEquity < 2 then 10
     else if metrics.debtToEquity < 3 then 5 else 0)
  let score := score +
    (if c.years.length ≥ 2 then
      let recentYear := c.years.getLastD FiscalYearRecord.zero
      let prevYear := c.years.getD (c.years.length - 2) FiscalYearRecord.zero
      let revenueGrowth := growthRate prevYear.revenue recentYear.revenue
      let profitGrowth := growthRate prevYear.netProfit recentYear.netProfit
      (if revenueGrowth > 20 then 15
       else if revenueGrowth > 10 then 10
       else if revenueGrowth > 5 then 5 else 0) +
      (if profitGrowth > 20 then 15
       else if profitGrowth > 10 then 10
       else if profitGrowth > 5 then 5 else 0)
     else 0)
  clamp score 0 100

/-- The three risk bands of `FinancialAnalyzer.calculateRisk`. -/
inductive RiskLevel where
  | low
  | medium
  | high
  deriving DecidableEq, Repr

/-- The risk band decision of `FinancialAnalyzer.calculateRisk`
    (`src/unnamed/part_001` lines 166-197), factored over the metrics it
    reads: additive risk score from leverage, profitability and valuation
    buckets, mapped to a band at 65 and 35. -/
def riskFromMetrics (m : Metrics) : RiskLevel :=
  let riskScore : ℚ := 0
  let riskScore := riskScore +
    (if m.debtToEquity > 3 then 45
     else if m.debtToEquity > 2 then 30
     else if m.debtToEquity > 1 then 15 else 0)
  let riskScore := riskScore +
    (if m.profitMargin < 0 then 40
     else if m.profitMargin < 5 then 25
     else if m.profitMargin < 10 then 10 else 0)
  let riskScore := riskScore +
    (if m.priceToEquity > 12 then 20
     else if m.priceToEquity > 7 then 10 else 0)
  if riskScore ≥ 65 then .high
  else if riskScore ≥ 35 then .medium
  else .low

/-- `FinancialAnalyzer.calculateRisk(company)`. -/
def calculateRisk (c : Company) : RiskLevel :=
  riskFromMetrics (calculateMetrics c)

/-- `MLEngine.normalize(value, min, max)` (`src/unnamed/part_000`
    lines 12-15): 0.5 on a degenerate range, else linear rescaling. -/
def normalize (value lo hi : ℚ) : ℚ :=
  if hi = lo then 0.5 else (value - lo) / (hi - lo)

/-- `Math.min(...arr)` over a non-empty JS array ([] is out of contract,
    modelled as 0). -/
def minList : List ℚ → ℚ
  | [] => 0
  | x :: xs => xs.foldl min x

/-- `Math.max(...arr)` over a non-empty JS array ([] is out of contract,
    modelled as 0). -/
def maxList : List ℚ → ℚ
  | [] => 0
  | x :: xs => xs.foldl max x

/-- `MLEngine.calculateUndervaluationScore(company)`
    (`src/unnamed/part_000` lines 18-62): population-normalized weighted
    composite of valuation, profitability, leverage and ROE features.
    `this.companies` is the explicit `companies` argument. -/
def calculateUndervaluationScore (companies : List Company) (c : Company) : ℚ :=
  let metrics := calculateMetrics c
  let allMetrics := companies.map calculateMetrics
  let peRatios := (allMetrics.map (·.priceToEquity)).filter (fun v => isValidNumber v)
  let margins := (allMetrics.map (·.profitMargin)).filter (fun v => isValidNumber v)
  let debtRatios := (allMetrics.map (·.debtToEquity)).filter (fun v => isValidNumber v)
  let peMin := minList peRatios
  let peMax := maxList peRatios
  let marginMin := minList margins
  let marginMax := maxList margins
  let debtMin := minList debtRatios
  let debtMax := maxList debtRatios
  let valuationScore := 1 - normalize metrics.priceToEquity peMin peMax
  let profitabilityScore := normalize metrics.profitMargin marginMin marginMax
  let debtScore := 1 - normalize metrics.debtToEquity debtMin debtMax
  let roeScore := clamp (metrics.roe / 30) 0 1
  let score := valuationScore * 0.35 + profitabilityScore * 0.30 +
    debtScore * 0.20 + roeScore * 0.15
  clamp (score * 100) 0 100

/-- Number of consecutive strictly increasing pairs of a list: the count
    accumulated by the `for` loops of `MLEngine.calculateMomentumScore`. -/
def countIncreases (l : List ℚ) : ℕ :=
  (l.zip l.tail).countP fun p => decide (p.1 < p.2)

/-- `MLEngine.calculateMomentumScore(company)` (`src/unnamed/part_000`
    lines 65-109): neutral 50 below 3 periods; otherwise
    revenue/profit momentum fractions, growth-rate acceleration fraction,
    weighted sum, and a final `clamp(score * 100, 0, 100)`. -/
def calculateMomentumScore (c : Company) : ℚ :=
  if c.years.length < 3 then 50
  else
    let years := c.years
    let revenueIncreasing := countIncreases (years.map (·.revenue))
    let revenueMomentum := (revenueIncreasing : ℚ) / ((years.length : ℚ) - 1)
    let profitIncreasing := countIncreases (years.map (·.netProfit))
    let profitMomentum := (profitIncreasing : ℚ) / ((years.length : ℚ) - 1)
    let revs := years.map (·.revenue)
    let revenueGrowthRates := (revs.zip revs.tail).map fun p => growthRate p.1 p.2
    let acceleration : ℚ :=
      if revenueGrowthRates.length ≥ 2 then
        (countIncreases revenueGrowthRates : ℚ) /
          ((revenueGrowthRates.length : ℚ) - 1)
      else 0
    let score := revenueMomentum * 40 + profitMomentum * 40 + acceleration * 20
    clamp (score * 100) 0 100

/-- The linear-regression extrapolation shared verbatim by
    `MLEngine.predict2026Revenue` and `MLEngine.predict2026Profit`
    (`src/unnamed/part_000` lines 115-129 and 138-150): least-squares
    slope/intercept over indices `0..n-1`, evaluated at index `n`. -/
def olsForecast (ys : List ℚ) : ℚ :=
  let n := ys.length
  let xs : List ℚ := (List.range n).map (fun i => (i : ℚ))
  let sumX := xs.sum
  let sumY := ys.sum
  let sumXY := ((xs.zip ys).map fun p => p.1 * p.2).sum
  let sumX2 := (xs.map fun x => x * x).sum
  let slope := ((n : ℚ) * sumXY - sumX * sumY) / ((n : ℚ) * sumX2 - sumX * sumX)
  let intercept := (sumY - slope * sumX) / (n : ℚ)
  slope * (n : ℚ) + intercept

/-- `MLEngine.predict2026Revenue(company)` (`src/unnamed/part_000`
    lines 112-132): null below 3 periods, else the regression forecast
    floored at 0 by `Math.max(0, predictedRevenue)`. -/
def predict2026Revenue (c : Company) : Option ℚ :=
  if c.years.length < 3 then none
  else some (max 0 (olsForecast (c.years.map (·.revenue))))

/-- `MLEngine.predict2026Profit(company)` (`src/unnamed/part_000`
    lines 135-153): null below 3 periods, else the unfloored regression
    forecast. -/
def predict2026Profit (c : Company) : Option ℚ :=
  if c.years.length < 3 then none
  else some (olsForecast (c.years.map (·.netProfit)))

/-- The investment categories returned by `MLEngine.classifyCompany`. -/
inductive Category where
  | undervalued
  | overvalued
  | growth
  | stable
  | neutral
  deriving DecidableEq, Repr

/-- `MLEngine.classifyCompany(company)` (`src/unnamed/part_000`
    lines 156-182): the ordered decision tree; first matching rule wins,
    ending in the neutral default. -/
def classifyCompany (companies : List Company) (c : Company) : Category × ℚ :=
  let healthScore := calculateHealthScore c
  let undervalScore := calculateUndervaluationScore companies c
  let momentum := calculateMomentumScore c
  let risk := calculateRisk c
  let metrics := calculateMetrics c
  if undervalScore > 70 ∧ healthScore > 60 then (.undervalued, 0.9)
  else if healthScore < 40 ∧ (metrics.debtToEquity > 3 ∨ metrics.profitMargin < 0) then
    (.overvalued, 0.85)
  else if momentum > 75 ∧ healthScore > 50 then (.growth, 0.8)
  else if risk = .low ∧ metrics.marketCap > 50000 ∧ healthScore > 50 then
    (.stable, 0.85)
  else (.neutral, 0.5)

/-! ### Spec-side decompositions

Named definitions that follow the specification's wording, to be compared
with the embedded source functions above. -/

/-- Severity order on risk bands: low < medium < high. -/
def RiskLevel.severity : RiskLevel → ℕ
  | .low => 0
  | .medium => 1
  | .high => 2

/-- The spec's `revenueMomentum`: fraction of consecutive period pairs
    with a revenue increase. -/
def revenueMomentum (c : Company) : ℚ :=
  (countIncreases (c.years.map (·.revenue)) : ℚ) / ((c.years.length : ℚ) - 1)

/-- The spec's `profitMomentum`: fraction of consecutive period pairs
    with a net-profit increase. -/
def profitMomentum (c : Company) : ℚ :=
  (countIncreases (c.years.map (·.netProfit)) : ℚ) / ((c.years.length : ℚ) - 1)

/-- The period-over-period revenue growth-rate series of a company. -/
def revenueGrowthRates (c : Company) : List ℚ :=
  let revs := c.years.map (·.revenue)
  (revs.zip revs.tail).map fun p => growthRate p.1 p.2

/-- The spec's `acceleration`: fraction of consecutive growth-rate pairs
    with an increase, 0 if fewer than 2 growth rates exist. -/
def accelerationFrac (c : Company) : ℚ :=
  if (revenueGrowthRates c).length ≥ 2 then
    (countIncreases (revenueGrowthRates c) : ℚ) /
      (((revenueGrowthRates c).length : ℚ) - 1)
  else 0

/-- The spec's momentum composite:
    `revenueMomentum*40 + profitMomentum*40 + acceleration*20`. -/
def composite (c : Company) : ℚ :=
  revenueMomentum c * 40 + profitMomentum c * 40 + accelerationFrac c * 20

/-- The profitMargin bucket of the health score, as the spec words it:
    >20→20, >10→15, >5→10, >0→5, else 0. -/
def marginBucket (pm : ℚ) : ℚ :=
  if pm > 20 then 20 else if pm > 10 then 15
  else if pm > 5 then 10 else if pm > 0 then 5 else 0

/-- The returnOnEquity bucket the code actually applies:
    >20→20, >15→15, >10→10, >5→5, else 0. -/
def roeBucket (r : ℚ) : ℚ :=
  if r > 20 then 20 else if r > 15 then 15
  else if r > 10 then 10 else if r > 5 then 5 else 0

/-- The leverage bucket of the health score:
    <0.5→30, <1→20, <2→10, <3→5, else 0. -/
def debtBucket (d : ℚ) : ℚ :=
  if d < 0.5 then 30 else if d < 1 then 20
  else if d < 2 then 10 else if d < 3 then 5 else 0

/-- The growth contribution of the health score: with ≥ 2 periods, the
    year-over-year revenue and profit growth-rate buckets
    (>20→15, >10→10, >5→5 each); otherwise 0. -/
def growthContribution (c : Company) : ℚ :=
  if c.years.length ≥ 2 then
    let recentYear := c.years.getLastD FiscalYearRecord.zero
    let prevYear := c.years.getD (c.years.length - 2) FiscalYearRecord.zero
    let revenueGrowth := growthRate prevYear.revenue recentYear.revenue
    let profitGrowth := growthRate prevYear.netProfit recentYear.netProfit
    (if revenueGrowth > 20 then 15
     else if revenueGrowth > 10 then 10
     else if revenueGrowth > 5 then 5 else 0) +
    (if profitGrowth > 20 then 15
     else if profitGrowth > 10 then 10
     else if profitGrowth > 5 then 5 else 0)
  else 0

/-- Health score assembled from named buckets, parameterized by the
    returnOnEquity bucketing `roeB`; with `roeB = marginBucket` this is
    the health score claim C2 describes (ROE bucketed identically to
    profitMargin), with `roeB = roeBucket` the code's actual bucketing. -/
def healthByBuckets (roeB : ℚ → ℚ) (c : Company) : ℚ :=
  let m := calculateMetrics c
  clamp (marginBucket m.profitMargin + roeB m.roe +
    debtBucket m.debtToEquity + growthContribution c) 0 100

/-! ### Concrete companies used by counterexamples and witnesses -/

/-- Shorthand for a fiscal-year record. -/
def mkYear (r p d e m : ℚ) : FiscalYearRecord := ⟨r, p, d, e, m⟩

/-- Claim C3's concrete company: a single fiscal year with revenue 1000,
    netProfit 100, totalDebt 200, totalEquity 500, marketCap 1500. -/
def c3Company : Company := ⟨[mkYear 1000 100 200 500 1500]⟩

/-- A single-year company whose returnOnEquity is 8 (netProfit 8 on
    totalEquity 100): separates the code's ROE bucketing from claim C2's. -/
def c2Company : Company := ⟨[mkYear 1000 8 1000 100 0]⟩

/-- A 42-period company: revenue 2 once, then 1 for 41 periods.  Its
    momentum composite is `20 * (1/40) = 0.5`, so the reported momentum
    score is exactly 50 despite having ≥ 3 periods. -/
def c4Company : Company := ⟨mkYear 2 0 0 0 0 :: List.replicate 41 (mkYear 1 0 0 0 0)⟩

/-- A healthy, fast-growing, debt-free company (three fiscal years). -/
def strongCompany : Company :=
  ⟨[mkYear 100 10 0 1000 1000, mkYear 500 100 0 1000 1000,
    mkYear 1000 400 0 1000 1000]⟩

/-- A weak company: unprofitable, leveraged, expensive (one fiscal year). -/
def weakCompany : Company := ⟨[mkYear 1000 0 2000 1000 10000]⟩

/-- A company with linearly declining profits and flat revenue: its
    profit forecast is negative. -/
def decliningCompany : Company :=
  ⟨[mkYear 100 50 0 1 1, mkYear 100 0 0 1 1, mkYear 100 (-50) 0 1 1]⟩

/-- A metrics record with moderate leverage (debtToEquity 0.5). -/
def c8LowDebt : Metrics := ⟨20, 0, 0.5, 0, 0, 0, 0, 0, 0, 0⟩

/-- The same metrics record with debtToEquity raised to 3.5. -/
def c8HighDebt : Metrics := ⟨20, 0, 3.5, 0, 0, 0, 0, 0, 0, 0⟩

/-! ### Helper lemmas -/

/-- `clamp` returns the upper bound when the value reaches it. -/
theorem clamp_eq_hi (x lo hi : ℚ) (hlo : lo ≤ hi) (h : hi ≤ x) :
    clamp x lo hi = hi := by
  unfold clamp
  rw [max_eq_left (hlo.trans h), min_eq_right h]

/-- `clamp` is the identity inside the bounds. -/
theorem clamp_eq_self (x lo hi : ℚ) (h1 : lo ≤ x) (h2 : x ≤ hi) :
    clamp x lo hi = x := by
  unfold clamp
  rw [max_eq_left h1, min_eq_left h2]

/-- With at least 3 periods, the momentum score is the clamp of the
    spec's composite times 100. -/
theorem momentumScore_eq_clamp_composite (c : Company) (h : 3 ≤ c.years.length) :
    calculateMomentumScore c = clamp (composite c * 100) 0 100 := by
  unfold calculateMomentumScore composite revenueMomentum profitMomentum
    accelerationFrac revenueGrowthRates
  rw [if_neg (by omega)]

/-- The revenue-momentum fraction is nonnegative for ≥ 3 periods. -/
theorem revenueMomentum_nonneg (c : Company) (h : 3 ≤ c.years.length) :
    0 ≤ revenueMomentum c := by
  have h3 : (3 : ℚ) ≤ (c.years.length : ℚ) := by exact_mod_cast h
  exact div_nonneg (Nat.cast_nonneg _) (by linarith)

/-- The profit-momentum fraction is nonnegative for ≥ 3 periods. -/
theorem profitMomentum_nonneg (c : Company) (h : 3 ≤ c.years.length) :
    0 ≤ profitMomentum c := by
  have h3 : (3 : ℚ) ≤ (c.years.length : ℚ) := by exact_mod_cast h
  exact div_nonneg (Nat.cast_nonneg _) (by linarith)

/-- The acceleration fraction is always nonnegative. -/
theorem accelerationFrac_nonneg (c : Company) : 0 ≤ accelerationFrac c := by
  unfold accelerationFrac
  split_ifs with h2
  · have h2q : (2 : ℚ) ≤ ((revenueGrowthRates c).length : ℚ) := by exact_mod_cast h2
    exact div_nonneg (Nat.cast_nonneg _) (by linarith)
  · exact le_refl 0

/-- The momentum composite is nonnegative for ≥ 3 periods. -/
theorem composite_nonneg (c : Company) (h : 3 ≤ c.years.length) :
    0 ≤ composite c := by
  have h1 := revenueMomentum_nonneg c h
  have h2 := profitMomentum_nonneg c h
  have h3 := accelerationFrac_nonneg c
  unfold composite
  linarith

/-- The mapping from risk score to band is monotone under the
    severity order. -/
theorem band_severity_mono (s1 s2 : ℚ) (h : s1 ≤ s2) :
    (if s1 ≥ 65 then RiskLevel.high
     else if s1 ≥ 35 then RiskLevel.medium else RiskLevel.low).severity ≤
    (if s2 ≥ 65 then RiskLevel.high
     else if s2 ≥ 35 then RiskLevel.medium else RiskLevel.low).severity := by
  split_ifs
  all_goals simp only [RiskLevel.severity]
  all_goals try norm_num
  all_goals exfalso
  all_goals linarith

/-! ### Claim theorems -/

/-- C10: `safeDivide(a, 0) = 0` for every `a`, and `safeDivide(a, b) = a/b`
    for every nonzero `b`; consequently a zero denominator in any derived
    metric (ROE, debtToEquity, priceToEquity on zero equity; profitMargin,
    priceToSales on zero revenue) yields 0, never a fault. -/
theorem C10_safeDivide_safety :
    (∀ a : ℚ, safeDivide a 0 = 0) ∧
    (∀ a b : ℚ, b ≠ 0 → safeDivide a b = a / b) ∧
    (∀ c : Company,
      ((c.years.getLastD FiscalYearRecord.zero).totalEquity = 0 →
        (calculateMetrics c).roe = 0 ∧ (calculateMetrics c).debtToEquity = 0 ∧
          (calculateMetrics c).priceToEquity = 0) ∧
      ((c.years.getLastD FiscalYearRecord.zero).revenue = 0 →
        (calculateMetrics c).profitMargin = 0 ∧
          (calculateMetrics c).priceToSales = 0)) := by
  refine ⟨fun a => by simp [safeDivide], fun a b hb => by simp [safeDivide, hb],
    fun c => ⟨fun he => ?_, fun hr => ?_⟩⟩
  · simp only [calculateMetrics]
    rw [he]
    norm_num [safeDivide]
  · simp only [calculateMetrics]
    rw [hr]
    norm_num [safeDivide]

/-- C10 witness: concrete instances of each guarded division, including a
    company whose latest record has zero equity. -/
theorem C10_witness :
    safeDivide 7 0 = 0 ∧ safeDivide 6 3 = 2 ∧
      (calculateMetrics ⟨[mkYear 5 5 5 0 5]⟩).roe = 0 := by
  refine ⟨C10_safeDivide_safety.1 7, ?_, ?_⟩
  · rw [C10_safeDivide_safety.2.1 6 3 (by norm_num)]; norm_num
  · exact ((C10_safeDivide_safety.2.2 ⟨[mkYear 5 5 5 0 5]⟩).1 rfl).1

/-- C3 counterexample: for the claimed single-year company the health
    score is 55, not the claimed 60 (profitMargin = 10 is not > 10, so the
    margin bucket contributes 10 points, not 15). -/
theorem C3_counterexample : calculateHealthScore c3Company ≠ 60 := by
  norm_num [calculateHealthScore, calculateMetrics, safeDivide, growthRate,
    clamp, c3Company, mkYear, FiscalYearRecord.zero, List.getLastD,
    min_def, max_def]

/-- C3 amended: for the single-year company {revenue 1000, netProfit 100,
    totalDebt 200, totalEquity 500, marketCap 1500} the derived metrics
    are profitMargin 10, ROE 20, debtToEquity 0.4, priceToEquity 3,
    priceToSales 1.5, and the health score is 55: profitability
    10 (margin = 10 falls in the > 5 bucket) + 15 (ROE = 20 falls in the
    > 15 bucket) = 25, leverage 30, growth 0. -/
theorem C3_amended :
    (calculateMetrics c3Company).profitMargin = 10 ∧
    (calculateMetrics c3Company).roe = 20 ∧
    (calculateMetrics c3Company).debtToEquity = 0.4 ∧
    (calculateMetrics c3Company).priceToEquity = 3 ∧
    (calculateMetrics c3Company).priceToSales = 1.5 ∧
    marginBucket 10 = 10 ∧ roeBucket 20 = 15 ∧ debtBucket 0.4 = 30 ∧
    growthContribution c3Company = 0 ∧
    calculateHealthScore c3Company = 55 := by
  norm_num [calculateHealthScore, calculateMetrics, safeDivide, growthRate,
    clamp, c3Company, mkYear, FiscalYearRecord.zero, List.getLastD,
    min_def, max_def, marginBucket, roeBucket, debtBucket, growthContribution]

/-- C2 counterexample: at ROE = 8 the code's health score is 10 while the
    claimed bucketing (ROE treated exactly like profitMargin) gives 15,
    because the code's ROE thresholds are 20/15/10/5, not 20/10/5/0. -/
theorem C2_counterexample :
    calculateHealthScore c2Company ≠ healthByBuckets marginBucket c2Company := by
  norm_num [calculateHealthScore, healthByBuckets, calculateMetrics,
    safeDivide, growthRate, clamp, c2Company, mkYear, FiscalYearRecord.zero,
    List.getLastD, min_def, max_def, marginBucket, debtBucket,
    growthContribution]

/-- C2 amended: for every company the health score decomposes into the
    margin bucket (>20→20, >10→15, >5→10, >0→5), an ROE bucket with the
    same point values but thresholds 20/15/10/5 (>20→20, >15→15, >10→10,
    >5→5), the leverage bucket and the growth contribution, clamped to
    [0,100]. -/
theorem C2_amended (c : Company) :
    calculateHealthScore c = healthByBuckets roeBucket c := by
  simp only [calculateHealthScore, healthByBuckets, marginBucket, roeBucket,
    debtBucket, growthContribution, zero_add]

/-- C8: the risk band is monotone non-decreasing in debtToEquity with the
    other metrics the band reads (profitMargin, priceToEquity) held fixed,
    under the severity order low < medium < high. -/
theorem C8_risk_monotone (m1 m2 : Metrics)
    (hpm : m1.profitMargin = m2.profitMargin)
    (hpe : m1.priceToEquity = m2.priceToEquity)
    (hde : m1.debtToEquity ≤ m2.debtToEquity) :
    (riskFromMetrics m1).severity ≤ (riskFromMetrics m2).severity := by
  simp only [riskFromMetrics]
  rw [hpm, hpe]
  have hd : (if m1.debtToEquity > 3 then (45 : ℚ)
      else if m1.debtToEquity > 2 then 30
      else if m1.debtToEquity > 1 then 15 else 0) ≤
      (if m2.debtToEquity > 3 then (45 : ℚ)
      else if m2.debtToEquity > 2 then 30
      else if m2.debtToEquity > 1 then 15 else 0) := by
    split_ifs <;> norm_num <;> linarith
  exact band_severity_mono _ _ (by linarith)

/-- C8 witness: raising debtToEquity from 0.5 to 3.5 with margin and
    valuation fixed does not lower the band's severity. -/
theorem C8_witness :
    (riskFromMetrics c8LowDebt).severity ≤ (riskFromMetrics c8HighDebt).severity :=
  C8_risk_monotone c8LowDebt c8HighDebt rfl rfl (by norm_num [c8LowDebt, c8HighDebt])

/-- Prepending to a two-or-more element list adds one pair to the
    increase count. -/
theorem countIncreases_cons_cons (a b : ℚ) (l : List ℚ) :
    countIncreases (a :: b :: l) =
      countIncreases (b :: l) + (if a < b then 1 else 0) := by
  simp [countIncreases, List.countP_cons]

/-- A constant list has no increasing pair. -/
theorem countIncreases_replicate (n : ℕ) (x : ℚ) :
    countIncreases (List.replicate n x) = 0 := by
  induction n with
  | zero => rfl
  | succ m ih =>
    cases m with
    | zero => rfl
    | succ k =>
      rw [List.replicate_succ, List.replicate_succ,
        countIncreases_cons_cons, ← List.replicate_succ, ih]
      simp

/-- Prepending a non-smaller head to a constant list keeps the increase
    count at zero. -/
theorem countIncreases_cons_replicate (a x : ℚ) (n : ℕ) (hn : 1 ≤ n)
    (hax : ¬ a < x) : countIncreases (a :: List.replicate n x) = 0 := by
  obtain ⟨m, rfl⟩ : ∃ m, n = m + 1 := ⟨n - 1, by omega⟩
  rw [List.replicate_succ, countIncreases_cons_cons, ← List.replicate_succ,
    countIncreases_replicate, if_neg hax]

/-- Zipping a constant list with its one-shorter constant tail. -/
theorem zip_replicate_cons (x : ℚ) (n : ℕ) :
    (x :: List.replicate n x).zip (List.replicate n x) =
      List.replicate n (x, x) := by
  induction n with
  | zero => rfl
  | succ k ih =>
    rw [List.replicate_succ, List.zip_cons_cons, ih, ← List.replicate_succ]

/-- The growth-rate series has one fewer element than the fiscal
    history. -/
theorem length_revenueGrowthRates (c : Company) :
    (revenueGrowthRates c).length = c.years.length - 1 := by
  simp only [revenueGrowthRates, List.length_map, List.length_zip,
    List.length_tail]
  omega

/-- The 42-period company `c4Company` scores exactly 50: composite
    `20 * (1/40) = 0.5`, and `clamp(0.5*100, 0, 100) = 50`. -/
theorem c4Company_momentum : calculateMomentumScore c4Company = 50 := by
  have hlen : c4Company.years.length = 42 := by
    simp [c4Company, List.length_replicate]
  have h3 : 3 ≤ c4Company.years.length := by rw [hlen]; norm_num
  have hrevs : c4Company.years.map (·.revenue) = 2 :: List.replicate 41 1 := by
    simp [c4Company, List.map_replicate, mkYear]
  have hprofs : c4Company.years.map (·.netProfit) =
      0 :: List.replicate 41 0 := by
    simp [c4Company, List.map_replicate, mkYear]
  have hrev0 : countIncreases (c4Company.years.map (·.revenue)) = 0 := by
    rw [hrevs]
    exact countIncreases_cons_replicate 2 1 41 (by norm_num) (by norm_num)
  have hprof0 : countIncreases (c4Company.years.map (·.netProfit)) = 0 := by
    rw [hprofs]
    exact countIncreases_cons_replicate 0 0 41 (by norm_num) (by norm_num)
  have hgr : revenueGrowthRates c4Company =
      (-50 : ℚ) :: List.replicate 40 0 := by
    simp only [revenueGrowthRates]
    rw [hrevs]
    rw [show List.replicate 41 (1 : ℚ) = 1 :: List.replicate 40 1 from rfl]
    rw [List.tail_cons, List.zip_cons_cons, zip_replicate_cons,
      List.map_cons, List.map_replicate]
    norm_num [growthRate]
  have hglen : (revenueGrowthRates c4Company).length = 41 := by
    rw [length_revenueGrowthRates, hlen]
  have hk : countIncreases (revenueGrowthRates c4Company) = 1 := by
    rw [hgr]
    rw [show List.replicate 40 (0 : ℚ) = 0 :: List.replicate 39 0 from rfl]
    rw [countIncreases_cons_cons,
      countIncreases_cons_replicate 0 0 39 (by norm_num) (by norm_num),
      if_pos (by norm_num : (-50 : ℚ) < 0)]
  rw [momentumScore_eq_clamp_composite c4Company h3]
  have hcomp : composite c4Company = 1 / 2 := by
    unfold composite revenueMomentum profitMomentum accelerationFrac
    rw [hrev0, hprof0, hk, hlen, hglen]
    rw [if_pos (by norm_num)]
    norm_num
  rw [hcomp]
  norm_num [clamp, min_def, max_def]

/-- C4 counterexample: `c4Company` has 42 ≥ 3 fiscal periods yet its
    momentum score is exactly 50, refuting the claimed equivalence. -/
theorem C4_counterexample :
    calculateMomentumScore c4Company = 50 ∧ ¬ c4Company.years.length < 3 := by
  refine ⟨c4Company_momentum, ?_⟩
  simp [c4Company, List.length_replicate]

/-- C4 amended: with fewer than 3 fiscal periods the momentum score is
    the neutral 50; the converse fails — a company with 3 or more periods
    (42 periods with composite 0.5) can also score exactly 50. -/
theorem C4_amended_neutral :
    (∀ c : Company, c.years.length < 3 → calculateMomentumScore c = 50) ∧
    (3 ≤ c4Company.years.length ∧ calculateMomentumScore c4Company = 50) := by
  refine ⟨fun c hc => ?_, ⟨?_, c4Company_momentum⟩⟩
  · unfold calculateMomentumScore
    rw [if_pos hc]
  · simp [c4Company, List.length_replicate]

/-- C4 witness: a one-period company gets the neutral score. -/
theorem C4_witness :
    (⟨[mkYear 1 1 1 1 1]⟩ : Company).years.length < 3 ∧
      calculateMomentumScore ⟨[mkYear 1 1 1 1 1]⟩ = 50 :=
  ⟨by norm_num, C4_amended_neutral.1 ⟨[mkYear 1 1 1 1 1]⟩ (by norm_num)⟩

/-- C1: for every company with at least 3 fiscal periods, the reported
    momentum score equals `clamp(composite*100, 0, 100)` with
    `composite = revenueMomentum*40 + profitMomentum*40 + acceleration*20`;
    hence the score is 100 whenever composite ≥ 1 and equals
    composite*100 otherwise. -/
theorem C1_momentum_formula (c : Company) (h : 3 ≤ c.years.length) :
    calculateMomentumScore c = clamp (composite c * 100) 0 100 ∧
    (1 ≤ composite c → calculateMomentumScore c = 100) ∧
    (composite c < 1 → calculateMomentumScore c = composite c * 100) := by
  have heq := momentumScore_eq_clamp_composite c h
  have hnn := composite_nonneg c h
  refine ⟨heq, fun h1 => ?_, fun h1 => ?_⟩
  · rw [heq]
    exact clamp_eq_hi _ _ _ (by norm_num) (by linarith)
  · rw [heq]
    exact clamp_eq_self _ _ _ (by linarith) (by linarith)

/-- C1 witness: a concrete 3-period company instantiating the formula. -/
theorem C1_witness :
    3 ≤ strongCompany.years.length ∧
      calculateMomentumScore strongCompany =
        clamp (composite strongCompany * 100) 0 100 :=
  ⟨by norm_num [strongCompany],
    (C1_momentum_formula strongCompany (by norm_num [strongCompany])).1⟩

/-- C5: with between 3 and 22 fiscal periods the reported momentum score
    is exactly 0 or exactly 100: the smallest positive composite,
    min(40/(n-1), 20/(n-2)), already reaches the ceiling after the extra
    ×100 factor. -/
theorem C5_momentum_saturates (c : Company) (h3 : 3 ≤ c.years.length)
    (h22 : c.years.length ≤ 22) :
    calculateMomentumScore c = 0 ∨ calculateMomentumScore c = 100 := by
  have heq := momentumScore_eq_clamp_composite c h3
  have h3q : (3 : ℚ) ≤ (c.years.length : ℚ) := by exact_mod_cast h3
  have h22q : ((c.years.length : ℚ)) ≤ 22 := by exact_mod_cast h22
  have hn1pos : (0 : ℚ) < (c.years.length : ℚ) - 1 := by linarith
  have hsat : 1 ≤ composite c → calculateMomentumScore c = 100 := by
    intro h1
    rw [heq]
    exact clamp_eq_hi _ _ _ (by norm_num) (by linarith)
  have hrnn := revenueMomentum_nonneg c h3
  have hpnn := profitMomentum_nonneg c h3
  have hann := accelerationFrac_nonneg c
  by_cases ha : countIncreases (c.years.map (·.revenue)) = 0
  · by_cases hb : countIncreases (c.years.map (·.netProfit)) = 0
    · by_cases hk : countIncreases (revenueGrowthRates c) = 0
      · left
        have hr0 : revenueMomentum c = 0 := by
          unfold revenueMomentum
          rw [ha]
          norm_num
        have hp0 : profitMomentum c = 0 := by
          unfold profitMomentum
          rw [hb]
          norm_num
        have ha0 : accelerationFrac c = 0 := by
          unfold accelerationFrac
          split_ifs
          · rw [hk]; norm_num
          · rfl
        have hc0 : composite c = 0 := by
          unfold composite
          rw [hr0, hp0, ha0]
          ring
        rw [heq, hc0]
        rw [show (0 : ℚ) * 100 = 0 by ring]
        exact clamp_eq_self _ _ _ (le_refl 0) (by norm_num)
      · right
        apply hsat
        have hk1 : (1 : ℚ) ≤ (countIncreases (revenueGrowthRates c) : ℚ) := by
          have := Nat.pos_of_ne_zero hk
          exact_mod_cast this
        have hcast : ((revenueGrowthRates c).length : ℚ) =
            (c.years.length : ℚ) - 1 := by
          rw [length_revenueGrowthRates, Nat.cast_sub (by omega)]
          norm_num
        have hacc : 1 ≤ accelerationFrac c * 20 := by
          unfold accelerationFrac
          rw [if_pos (by rw [length_revenueGrowthRates]; omega)]
          rw [hcast, div_mul_eq_mul_div, le_div_iff₀ (by linarith)]
          linarith
        unfold composite
        nlinarith [mul_nonneg hrnn (by norm_num : (0:ℚ) ≤ 40),
          mul_nonneg hpnn (by norm_num : (0:ℚ) ≤ 40)]
    · right
      apply hsat
      have hb1 : (1 : ℚ) ≤ (countIncreases (c.years.map (·.netProfit)) : ℚ) := by
        have := Nat.pos_of_ne_zero hb
        exact_mod_cast this
      have hpm : 1 ≤ profitMomentum c * 40 := by
        unfold profitMomentum
        rw [div_mul_eq_mul_div, le_div_iff₀ hn1pos]
        linarith
      unfold composite
      nlinarith [mul_nonneg hrnn (by norm_num : (0:ℚ) ≤ 40),
        mul_nonneg hann (by norm_num : (0:ℚ) ≤ 20)]
  · right
    apply hsat
    have ha1 : (1 : ℚ) ≤ (countIncreases (c.years.map (·.revenue)) : ℚ) := by
      have := Nat.pos_of_ne_zero ha
      exact_mod_cast this
    have hrm : 1 ≤ revenueMomentum c * 40 := by
      unfold revenueMomentum
      rw [div_mul_eq_mul_div, le_div_iff₀ hn1pos]
      linarith
    unfold composite
    nlinarith [mul_nonneg hpnn (by norm_num : (0:ℚ) ≤ 40),
      mul_nonneg hann (by norm_num : (0:ℚ) ≤ 20)]

/-- C5 witness: a concrete 3-period company whose score saturates. -/
theorem C5_witness :
    3 ≤ strongCompany.years.length ∧ strongCompany.years.length ≤ 22 ∧
      (calculateMomentumScore strongCompany = 0 ∨
        calculateMomentumScore strongCompany = 100) :=
  ⟨by norm_num [strongCompany], by norm_num [strongCompany],
    C5_momentum_saturates strongCompany (by norm_num [strongCompany])
      (by norm_num [strongCompany])⟩

/-- C6: revenue and profit predictions are null exactly when fewer than 3
    fiscal periods exist; with ≥ 3 periods the revenue prediction is the
    least-squares extrapolation floored at 0 (hence nonnegative) and the
    profit prediction the unfloored extrapolation, which is negative for
    the declining company. -/
theorem C6_predictions (c : Company) :
    (predict2026Revenue c = none ↔ c.years.length < 3) ∧
    (predict2026Profit c = none ↔ c.years.length < 3) ∧
    (∀ r : ℚ, predict2026Revenue c = some r → 0 ≤ r) ∧
    (3 ≤ c.years.length →
      predict2026Revenue c =
        some (max 0 (olsForecast (c.years.map (·.revenue)))) ∧
      predict2026Profit c = some (olsForecast (c.years.map (·.netProfit)))) ∧
    (predict2026Profit decliningCompany = some (-100) ∧ (-100 : ℚ) < 0) := by
  refine ⟨?_, ?_, ?_, ?_, ?_, ?_⟩
  · by_cases h : c.years.length < 3 <;> simp [predict2026Revenue, h]
  · by_cases h : c.years.length < 3 <;> simp [predict2026Profit, h]
  · intro r hr
    by_cases h : c.years.length < 3
    · simp [predict2026Revenue, h] at hr
    · simp only [predict2026Revenue, if_neg h, Option.some_inj] at hr
      rw [← hr]
      exact le_max_left 0 _
  · intro h3
    constructor <;>
      simp [predict2026Revenue, predict2026Profit,
        show ¬ c.years.length < 3 by omega]
  · norm_num [predict2026Profit, olsForecast, decliningCompany, mkYear,
      show List.range 3 = [0, 1, 2] from rfl, List.zip, List.zipWith]
  · norm_num

/-- C6 witness: the three-period declining company instantiates the
    ≥ 3-period branch. -/
theorem C6_witness :
    3 ≤ decliningCompany.years.length ∧
      predict2026Revenue decliningCompany =
        some (max 0 (olsForecast (decliningCompany.years.map (·.revenue)))) :=
  ⟨by norm_num [decliningCompany],
    ((C6_predictions decliningCompany).2.2.2.1
      (by norm_num [decliningCompany])).1⟩

/-- C7: classification is first-match-wins over the ordered rule list: a
    company meeting both rule 1's and rule 3's conditions is classified
    undervalued with confidence 0.90, and every company receives one of
    the five (category, confidence) outcomes, ending in the neutral
    default with confidence 0.50. -/
theorem C7_classifier_order :
    (∀ (pop : List Company) (c : Company),
      calculateUndervaluationScore pop c > 70 ∧ calculateHealthScore c > 60 →
      calculateMomentumScore c > 75 ∧ calculateHealthScore c > 50 →
      classifyCompany pop c = (Category.undervalued, 0.9)) ∧
    (∀ (pop : List Company) (c : Company),
      classifyCompany pop c ∈
        [(Category.undervalued, (0.9 : ℚ)), (Category.overvalued, 0.85),
         (Category.growth, 0.8), (Category.stable, 0.85),
         (Category.neutral, 0.5)]) := by
  constructor
  · intro pop c h1 _h3
    simp only [classifyCompany]
    rw [if_pos h1]
  · intro pop c
    simp only [classifyCompany]
    split_ifs <;> simp

/-- C7 witness: `strongCompany` against the two-company population meets
    rule 1's and rule 3's conditions and is classified undervalued. -/
theorem C7_witness :
    calculateUndervaluationScore [strongCompany, weakCompany] strongCompany > 70 ∧
    calculateHealthScore strongCompany > 60 ∧
    calculateMomentumScore strongCompany > 75 ∧
    classifyCompany [strongCompany, weakCompany] strongCompany =
      (Category.undervalued, 0.9) := by
  have hu : calculateUndervaluationScore [strongCompany, weakCompany]
      strongCompany = 100 := by
    norm_num [calculateUndervaluationScore, calculateMetrics, minList, maxList,
      normalize, clamp, safeDivide, isValidNumber, strongCompany, weakCompany,
      mkYear, List.getLastD, FiscalYearRecord.zero, min_def, max_def,
      List.filter]
  have hh : calculateHealthScore strongCompany = 100 := by
    norm_num [calculateHealthScore, calculateMetrics, safeDivide, growthRate,
      clamp, strongCompany, mkYear, FiscalYearRecord.zero, List.getLastD,
      min_def, max_def]
  have hm : calculateMomentumScore strongCompany = 100 := by
    norm_num [calculateMomentumScore, countIncreases, growthRate, clamp,
      strongCompany, mkYear, min_def, max_def, List.zip, List.zipWith,
      List.countP, List.countP.go]
  refine ⟨by rw [hu]; norm_num, by rw [hh]; norm_num, by rw [hm]; norm_num,
    C7_classifier_order.1 [strongCompany, weakCompany] strongCompany
      ⟨by rw [hu]; norm_num, by rw [hh]; norm_num⟩
      ⟨by rw [hm]; norm_num, by rw [hh]; norm_num⟩⟩

/-- A min-fold either returns its initial value or an element of the
    list. -/
theorem foldl_min_mem (l : List ℚ) :
    ∀ a : ℚ, l.foldl min a = a ∨ l.foldl min a ∈ l := by
  induction l with
  | nil => intro a; left; rfl
  | cons x xs ih =>
    intro a
    rw [List.foldl_cons]
    rcases ih (min a x) with h | h
    · rcases min_choice a x with hc | hc
      · left; rw [h, hc]
      · right; rw [h, hc]; exact List.mem_cons_self x xs
    · right; exact List.mem_cons_of_mem x h

/-- A min-fold never exceeds its initial value. -/
theorem foldl_min_le_init (l : List ℚ) : ∀ a : ℚ, l.foldl min a ≤ a := by
  induction l with
  | nil => intro a; exact le_refl a
  | cons x xs ih =>
    intro a
    rw [List.foldl_cons]
    exact (ih (min a x)).trans (min_le_left a x)

/-- A min-fold never exceeds any element of the list. -/
theorem foldl_min_le_mem (l : List ℚ) :
    ∀ (a x : ℚ), x ∈ l → l.foldl min a ≤ x := by
  induction l with
  | nil => intro a x hx; simp at hx
  | cons y ys ih =>
    intro a x hx
    rw [List.foldl_cons]
    rcases List.mem_cons.1 hx with rfl | h
    · exact (foldl_min_le_init ys (min a x)).trans (min_le_right a x)
    · exact ih (min a y) x h

/-- `minList` of a non-empty list is one of its elements. -/
theorem minList_mem (l : List ℚ) (h : l ≠ []) : minList l ∈ l := by
  cases l with
  | nil => exact absurd rfl h
  | cons x xs =>
    show List.foldl min x xs ∈ x :: xs
    rcases foldl_min_mem xs x with h | h
    · rw [h]; exact List.mem_cons_self x xs
    · exact List.mem_cons_of_mem x h

/-- `minList` is a lower bound for the list. -/
theorem minList_le (l : List ℚ) (x : ℚ) (hx : x ∈ l) : minList l ≤ x := by
  cases l with
  | nil => simp at hx
  | cons y ys =>
    show List.foldl min y ys ≤ x
    rcases List.mem_cons.1 hx with rfl | h
    · exact foldl_min_le_init ys x
    · exact foldl_min_le_mem ys y x h

/-- `minList` is invariant under permutation. -/
theorem minList_perm (l1 l2 : List ℚ) (h : l1.Perm l2) :
    minList l1 = minList l2 := by
  cases l1 with
  | nil => rw [(List.Perm.eq_nil h.symm : l2 = [])]
  | cons x xs =>
    have h1 : (x :: xs) ≠ [] := by simp
    have h2 : l2 ≠ [] := by
      intro he
      subst he
      simp [List.Perm.eq_nil h] at h1
    exact le_antisymm
      (minList_le _ _ (h.mem_iff.2 (minList_mem l2 h2)))
      (minList_le _ _ (h.mem_iff.1 (minList_mem _ h1)))

/-- A max-fold either returns its initial value or an element of the
    list. -/
theorem foldl_max_mem (l : List ℚ) :
    ∀ a : ℚ, l.foldl max a = a ∨ l.foldl max a ∈ l := by
  induction l with
  | nil => intro a; left; rfl
  | cons x xs ih =>
    intro a
    rw [List.foldl_cons]
    rcases ih (max a x) with h | h
    · rcases max_choice a x with hc | hc
      · left; rw [h, hc]
      · right; rw [h, hc]; exact List.mem_cons_self x xs
    · right; exact List.mem_cons_of_mem x h

/-- A max-fold is at least its initial value. -/
theorem foldl_max_ge_init (l : List ℚ) : ∀ a : ℚ, a ≤ l.foldl max a := by
  induction l with
  | nil => intro a; exact le_refl a
  | cons x xs ih =>
    intro a
    rw [List.foldl_cons]
    exact (le_max_left a x).trans (ih (max a x))

/-- A max-fold is at least any element of the list. -/
theorem foldl_max_ge_mem (l : List ℚ) :
    ∀ (a x : ℚ), x ∈ l → x ≤ l.foldl max a := by
  induction l with
  | nil => intro a x hx; simp at hx
  | cons y ys ih =>
    intro a x hx
    rw [List.foldl_cons]
    rcases List.mem_cons.1 hx with rfl | h
    · exact (le_max_right a x).trans (foldl_max_ge_init ys (max a x))
    · exact ih (max a y) x h

/-- `maxList` of a non-empty list is one of its elements. -/
theorem maxList_mem (l : List ℚ) (h : l ≠ []) : maxList l ∈ l := by
  cases l with
  | nil => exact absurd rfl h
  | cons x xs =>
    show List.foldl max x xs ∈ x :: xs
    rcases foldl_max_mem xs x with h | h
    · rw [h]; exact List.mem_cons_self x xs
    · exact List.mem_cons_of_mem x h

/-- `maxList` is an upper bound for the list. -/
theorem maxList_ge (l : List ℚ) (x : ℚ) (hx : x ∈ l) : x ≤ maxList l := by
  cases l with
  | nil => simp at hx
  | cons y ys =>
    show x ≤ List.foldl max y ys
    rcases List.mem_cons.1 hx with rfl | h
    · exact foldl_max_ge_init ys x
    · exact foldl_max_ge_mem ys y x h

/-- `maxList` is invariant under permutation. -/
theorem maxList_perm (l1 l2 : List ℚ) (h : l1.Perm l2) :
    maxList l1 = maxList l2 := by
  cases l1 with
  | nil => rw [(List.Perm.eq_nil h.symm : l2 = [])]
  | cons x xs =>
    have h1 : (x :: xs) ≠ [] := by simp
    have h2 : l2 ≠ [] := by
      intro he
      subst he
      simp [List.Perm.eq_nil h] at h1
    exact le_antisymm
      (maxList_ge _ _ (h.mem_iff.1 (maxList_mem _ h1)))
      (maxList_ge _ _ (h.mem_iff.2 (maxList_mem l2 h2)))

/-- C9: the undervaluation score of a fixed company is invariant under
    permutation of the population, and genuinely population-dependent:
    scoring `strongCompany` alone yields 57.5, scoring it against the
    two-company population yields 100. -/
theorem C9_underval_population :
    (∀ (c : Company) (pop1 pop2 : List Company), pop1.Perm pop2 →
      calculateUndervaluationScore pop1 c =
        calculateUndervaluationScore pop2 c) ∧
    calculateUndervaluationScore [strongCompany] strongCompany ≠
      calculateUndervaluationScore [strongCompany, weakCompany]
        strongCompany := by
  constructor
  · intro c pop1 pop2 h
    have hm : (pop1.map calculateMetrics).Perm (pop2.map calculateMetrics) :=
      h.map _
    have hpe : ((((pop1.map calculateMetrics).map
        (·.priceToEquity)).filter (fun v => isValidNumber v)).Perm
        ((((pop2.map calculateMetrics).map
        (·.priceToEquity)).filter (fun v => isValidNumber v)))) :=
      (hm.map _).filter _
    have hmar : ((((pop1.map calculateMetrics).map
        (·.profitMargin)).filter (fun v => isValidNumber v)).Perm
        ((((pop2.map calculateMetrics).map
        (·.profitMargin)).filter (fun v => isValidNumber v)))) :=
      (hm.map _).filter _
    have hde : ((((pop1.map calculateMetrics).map
        (·.debtToEquity)).filter (fun v => isValidNumber v)).Perm
        ((((pop2.map calculateMetrics).map
        (·.debtToEquity)).filter (fun v => isValidNumber v)))) :=
      (hm.map _).filter _
    simp only [calculateUndervaluationScore]
    rw [minList_perm _ _ hpe, maxList_perm _ _ hpe, minList_perm _ _ hmar,
      maxList_perm _ _ hmar, minList_perm _ _ hde, maxList_perm _ _ hde]
  · have h1 : calculateUndervaluationScore [strongCompany] strongCompany =
        115 / 2 := by
      norm_num [calculateUndervaluationScore, calculateMetrics, minList,
        maxList, normalize, clamp, safeDivide, isValidNumber, strongCompany,
        mkYear, List.getLastD, FiscalYearRecord.zero, min_def, max_def,
        List.filter]
    have h2 : calculateUndervaluationScore [strongCompany, weakCompany]
        strongCompany = 100 := by
      norm_num [calculateUndervaluationScore, calculateMetrics, minList,
        maxList, normalize, clamp, safeDivide, isValidNumber, strongCompany,
        weakCompany, mkYear, List.getLastD, FiscalYearRecord.zero, min_def,
        max_def, List.filter]
    rw [h1, h2]
    norm_num

/-- C9 witness: swapping the two companies of the population leaves
    `strongCompany`'s score unchanged. -/
theorem C9_witness :
    calculateUndervaluationScore [strongCompany, weakCompany] strongCompany =
      calculateUndervaluationScore [weakCompany, strongCompany]
        strongCompany :=
  C9_underval_population.1 strongCompany [strongCompany, weakCompany]
    [weakCompany, strongCompany] (List.Perm.swap weakCompany strongCompany [])

end Market
